import Mathlib

/-!
Verification development for the vmem resource allocator (src/src/vmem.c,
public-domain implementation of the Bonwick/Adams vmem arena allocator).

The C code is shallowly embedded: machine words (`uintptr_t`, `size_t`) are
natural numbers reduced modulo `2^64` wherever the C arithmetic can wrap;
intrusive linked structures (the address-ordered segment queue `segqueue`,
the 64 power-of-two freelist buckets, the allocated hash index) are lists of
segment identifiers pointing into an association-list store, so that the
aliasing of one segment record between the queue and a freelist or hash
bucket is represented faithfully.  Fallible operations return `Option`;
the unbounded `while (true)` loop of `vmem_xalloc` is given a fuel
parameter, so that "no fuel suffices" expresses non-termination.

`FREELISTS_N` is 64: the constant lives in the missing header `vmem.h`,
and the comment at vmem.c:30 ("Assuming FREELISTS_N is 64 ...") together
with spec section 4.C (`K = 64` buckets) fixes it.

C assertions (`ASSERT`) abort the program; where a modelled operation's
assertion can fail on the inputs a claim is about, the model makes the
failure visible (`Option.none`, or the `ScanResult.assertfail` outcome of
the fit scan).  Assertions that hold on every run appearing in this file
are noted at their definition.
-/

/-- Width of a machine word: `uintptr_t` / `size_t` arithmetic is modulo
`2^64`. -/
def wsize : Nat := 2 ^ 64

/-- Wrapping 64-bit addition. -/
def add64 (a b : Nat) : Nat := (a + b) % wsize

/-- Wrapping 64-bit subtraction (two's-complement behaviour of unsigned
`a - b`). -/
def sub64 (a b : Nat) : Nat := (a + (wsize - b % wsize)) % wsize

/-- Bitwise complement on 64 bits, `~a` for `a < 2^64`. -/
def not64 (a : Nat) : Nat := wsize - 1 - a % wsize

/-- vmem.c:37 `VMEM_ALIGNUP(addr, align) = ((addr) + (align)-1) & ~((align)-1)`,
on 64-bit words.  Modelled for `align ≥ 1` (every call in the code passes
either the caller's nonzero `align` or the arena quantum). -/
def VMEM_ALIGNUP (addr align : Nat) : Nat :=
  ((addr + align - 1) % wsize) &&& (not64 ((align - 1) % wsize))

/-- Number of freelist buckets (vmem.c:30 comment, missing header; spec 4.C). -/
def FREELISTS_N : Nat := 64

/-- `__builtin_clzl` on a 64-bit word: fuel-based floor of log2 first
(`Nat.log2` is well-founded recursion and does not reduce in the kernel). -/
def log2ft : Nat → Nat → Nat
  | 0, _ => 0
  | fuel + 1, n => if n ≤ 1 then 0 else log2ft fuel (n / 2) + 1

/-- Floor of the base-2 logarithm of a 64-bit word. -/
def log2f (n : Nat) : Nat := log2ft 64 n

/-- `__builtin_clzl(n)` for `0 < n < 2^64` (undefined at 0 in C; the code
only applies it to nonzero sizes). -/
def clzl (n : Nat) : Nat := 63 - log2f n

/-- vmem.c:35 `GET_LIST(size) = FREELISTS_N - __builtin_clzl(size) - 1`,
kept as C `int` arithmetic (the value can go negative one step later). -/
def GET_LIST (size : Nat) : Int := (FREELISTS_N : Int) - (clzl size : Int) - 1

/-- vmem.c:123-126 `freelist_for_size` returns `&vmem->freelist[GET_LIST(size) - 1]`;
this is the bucket index it uses, as C `int` arithmetic.  Equals
`FREELISTS_N - clzl(size) - 2`. -/
def freelist_for_size_idx (size : Nat) : Int := GET_LIST size - 1

/-- Segment kinds, vmem.h `SEGMENT_ALLOCATED / SEGMENT_FREE / SEGMENT_SPAN`. -/
inductive SegType where
  | allocated
  | free
  | span
deriving DecidableEq

/-- One boundary tag (struct VmemSegment): base address, size, kind,
imported flag. -/
structure VmemSegment where
  base : Nat
  size : Nat
  type : SegType
  imported : Bool
deriving DecidableEq

/-- Arena state (struct Vmem).  `store` maps segment identifiers to records;
`segqueue` is the address-ordered TAILQ of ids; `freelist` is the array of
`FREELISTS_N` LIST buckets of ids; `hashlist` models the allocated hash
index: `hashtab_insert` is a `LIST_INSERT_HEAD` into the bucket
`murmur64(base) % n`, and since lookup and removal go by exact `base`
match and per-bucket insertion order is recency order, a single
recency-ordered list of ids has the same lookup/removal behaviour for
every table width. -/
structure Vmem where
  quantum : Nat
  store : List (Nat × VmemSegment)
  nextId : Nat
  segqueue : List Nat
  freelist : List (List Nat)
  hashlist : List Nat
deriving DecidableEq

/-- Dereference a segment id in the store (ids handed out by the model are
always present; the fallback is never reached on modelled runs). -/
def storeGet (st : List (Nat × VmemSegment)) (id : Nat) : VmemSegment :=
  (st.lookup id).getD ⟨0, 0, SegType.free, false⟩

/-- Overwrite the record of an existing id. -/
def storeSet (st : List (Nat × VmemSegment)) (id : Nat) (s : VmemSegment) :
    List (Nat × VmemSegment) :=
  st.map fun p => if p.1 = id then (id, s) else p

/-- `seg_alloc()`: take a fresh record, returning its id. -/
def segAllocIn (vm : Vmem) (s : VmemSegment) : Vmem × Nat :=
  ({ vm with store := vm.store ++ [(vm.nextId, s)], nextId := vm.nextId + 1 },
   vm.nextId)

/-- vmem.c:144-147 `vmem_add_to_freelist`: `LIST_INSERT_HEAD` into
`freelist_for_size(vm, seg->size)`. -/
def vmem_add_to_freelist (vm : Vmem) (id : Nat) : Vmem :=
  let idx := (freelist_for_size_idx (storeGet vm.store id).size).toNat
  { vm with freelist := vm.freelist.set idx (id :: vm.freelist.getD idx []) }

/-- `LIST_REMOVE` of a segment from whatever freelist bucket holds it
(intrusive O(1) unlink in C; by id here). -/
def freelist_remove (vm : Vmem) (id : Nat) : Vmem :=
  { vm with freelist := vm.freelist.map fun l => l.filter fun j => j ≠ id }

/-- Insert `newid` immediately before the first occurrence of `target`
(vmem.c:149-153 `vmem_insert_segment(vm, seg, prev)` is
`TAILQ_INSERT_AFTER(prev, seg)`, and every call site passes
`TAILQ_PREV(seg)`, i.e. inserts right before `seg`). -/
def insertBefore (q : List Nat) (target newid : Nat) : List Nat :=
  match q with
  | [] => [newid]
  | x :: rest =>
      if x = target then newid :: x :: rest else x :: insertBefore rest target newid

/-- Predecessor of `id` in the segment queue (`TAILQ_PREV`). -/
def queuePred : List Nat → Nat → Option Nat
  | [], _ => none
  | [_], _ => none
  | x :: y :: rest, id => if y = id then some x else queuePred (y :: rest) id

/-- Successor of `id` in the segment queue (`TAILQ_NEXT`). -/
def queueSucc : List Nat → Nat → Option Nat
  | [], _ => none
  | [_], _ => none
  | x :: y :: rest, id => if x = id then some y else queueSucc (y :: rest) id

/-- vmem.c:128-142 `vmem_contains`: true iff some segment of the queue
fully contains `[address, address+size]` (note: containment in a single
segment, not intersection). -/
def vmem_contains (vm : Vmem) (address size : Nat) : Bool :=
  let endv := add64 address size
  vm.segqueue.any fun id =>
    let s := storeGet vm.store id
    decide (s.base ≤ address) && decide (endv ≤ add64 s.base s.size)

/-- vmem.c:155-181 `vmem_add_internal`: append a SPAN segment at the queue
tail, a FREE segment covering the whole span right after it, and put the
FREE segment on its freelist.  (The C code leaves `newfree->imported`
uninitialized; it is only ever read by `vmem_dump`, and is modelled as
`false`.) -/
def vmem_add_internal (vm : Vmem) (base size : Nat) (import_ : Bool) :
    Vmem × Nat :=
  let (vm, spanId) := segAllocIn vm ⟨base, size, SegType.span, import_⟩
  let (vm, freeId) := segAllocIn vm ⟨base, size, SegType.free, false⟩
  let vm := { vm with segqueue := vm.segqueue ++ [spanId, freeId] }
  let vm := vmem_add_to_freelist vm freeId
  (vm, freeId)

/-- vmem.c:257-263 `vmem_add`: `ASSERT(!vmem_contains(vmp, addr, size))`,
then `vmem_add_internal(..., false)`.  The assertion firing is `none`. -/
def vmem_add (vm : Vmem) (addr size : Nat) : Option Vmem :=
  if vmem_contains vm addr size then none
  else some (vmem_add_internal vm addr size false).1

/-- vmem.c:221-255 `vmem_create` restricted to a null `source` (the claims
in this file involve arenas without a source; `vmem_xalloc` never reads
`vmp->source` anyway): initialize empty structures and, when `size` is
nonzero, install the initial span (the `vmem_add` overlap assertion is
vacuous on an empty arena). -/
def vmem_create (base size quantum : Nat) : Vmem :=
  let vm : Vmem :=
    { quantum := quantum, store := [], nextId := 0, segqueue := [],
      freelist := List.replicate FREELISTS_N [], hashlist := [] }
  if size ≠ 0 then (vmem_add_internal vm base size false).1 else vm

/-- vmem.c:183-219 `seg_fit`, the post-assertion computation: widened
window `start = MIN(seg->base, minaddr)`, `end = MAX(seg->base + seg->size,
maxaddr)`; align-up of `start - phase` plus `phase`; a single `+= align`
adjustment when the aligned start fell below the segment base; success iff
`start <= end && end - start >= size`.  All arithmetic wraps on 64 bits. -/
def seg_fit (seg : VmemSegment) (size align phase minaddr maxaddr : Nat) :
    Option Nat :=
  let start := min seg.base minaddr
  let endv := max (add64 seg.base seg.size) maxaddr
  if endv < start then none
  else
    let start := add64 (VMEM_ALIGNUP (sub64 start phase) align) phase
    let start := if start < seg.base then add64 start align else start
    if start ≤ endv ∧ size ≤ endv - start then some start else none

/-- The assertions at the head of `seg_fit` (vmem.c:186-187, 209):
`size > 0`, `segment->size >= size`, `nocross == 0`. -/
def seg_fit_asserts (seg : VmemSegment) (size nocross : Nat) : Prop :=
  0 < size ∧ size ≤ seg.size ∧ nocross = 0

instance (seg : VmemSegment) (size nocross : Nat) :
    Decidable (seg_fit_asserts seg size nocross) := by
  unfold seg_fit_asserts; infer_instance

/-- `seg_fit` including its assertions: `none` models the C program
aborting on an `ASSERT`, `some r` is the post-assertion result. -/
def seg_fit_checked (seg : VmemSegment)
    (size align phase nocross minaddr maxaddr : Nat) : Option (Option Nat) :=
  if seg_fit_asserts seg size nocross then
    some (seg_fit seg size align phase minaddr maxaddr)
  else none

/-- Outcome of the fit-search loop body of `vmem_xalloc`:
a fitting segment with its start address, no fit anywhere (the C loop then
spins again), or an `ASSERT` abort inside `seg_fit`. -/
inductive ScanResult where
  | found (id a : Nat)
  | nomem
  | assertfail (id : Nat)
deriving DecidableEq

/-- vmem.c:300-308, the `VM_INSTANTFIT` scan over bucket indices:
`seg = LIST_FIRST(list)`; if non-null, try `seg_fit` and stop on success,
otherwise move to the next bucket. -/
def instantfit_go (vm : Vmem) (size align phase nocross minaddr maxaddr : Nat) :
    List Nat → ScanResult
  | [] => .nomem
  | i :: rest =>
      match (vm.freelist.getD i []).head? with
      | none => instantfit_go vm size align phase nocross minaddr maxaddr rest
      | some id =>
          match seg_fit_checked (storeGet vm.store id) size align phase nocross
              minaddr maxaddr with
          | none => .assertfail id
          | some (some a) => .found id a
          | some none =>
              instantfit_go vm size align phase nocross minaddr maxaddr rest

/-- vmem.c:316-325 inner `LIST_FOREACH` of the `VM_BESTFIT` scan: first
segment in list order with `seg->size >= size` for which `seg_fit`
succeeds. -/
def bestfit_ids (vm : Vmem) (size align phase nocross minaddr maxaddr : Nat) :
    List Nat → ScanResult
  | [] => .nomem
  | id :: rest =>
      let s := storeGet vm.store id
      if size ≤ s.size then
        match seg_fit_checked s size align phase nocross minaddr maxaddr with
        | none => .assertfail id
        | some (some a) => .found id a
        | some none => bestfit_ids vm size align phase nocross minaddr maxaddr rest
      else bestfit_ids vm size align phase nocross minaddr maxaddr rest

/-- The `VM_BESTFIT` scan over bucket indices (vmem.c:311-326). -/
def bestfit_go (vm : Vmem) (size align phase nocross minaddr maxaddr : Nat) :
    List Nat → ScanResult
  | [] => .nomem
  | i :: rest =>
      match bestfit_ids vm size align phase nocross minaddr maxaddr
          (vm.freelist.getD i []) with
      | .found id a => .found id a
      | .assertfail id => .assertfail id
      | .nomem => bestfit_go vm size align phase nocross minaddr maxaddr rest

/-- `vmflag` bits relevant to the fit search: `VM_INSTANTFIT` is tested
first (vmem.c:295), then `VM_BESTFIT` (vmem.c:311). -/
structure VmFlags where
  instantfit : Bool
  bestfit : Bool
deriving DecidableEq

/-- One pass of the fit search of `vmem_xalloc` (the body of the
`while (true)` loop, vmem.c:293-331): buckets from
`freelist_for_size(vmp, size)` up to `&vmp->freelist[FREELISTS_N]`.
With neither flag set the C code hits `ASSERT(!"TODO")`; that is modelled
as an immediate abort via `.assertfail` with a dummy id. -/
def xalloc_scan (vm : Vmem) (size align phase nocross minaddr maxaddr : Nat)
    (flags : VmFlags) : ScanResult :=
  let first := (freelist_for_size_idx size).toNat
  let buckets := (List.range FREELISTS_N).drop first
  if flags.instantfit then
    instantfit_go vm size align phase nocross minaddr maxaddr buckets
  else if flags.bestfit then
    bestfit_go vm size align phase nocross minaddr maxaddr buckets
  else .assertfail 0

/-- vmem.c:333-409, the `found:` block: unlink the chosen segment, split a
leading leftover if the fit start is past the segment base (sizes wrap on
64 bits exactly as the C `size_t` arithmetic does), then either split a
trailing leftover and insert a fresh ALLOCATED segment, or promote the
segment itself; record the allocated segment in the hash index and return
its base.  The assertions of this block (vmem.c:334-336, 369, 403) hold on
every run in this file. -/
def vmem_xalloc_found (vm : Vmem) (size segId start : Nat) : Vmem × Nat :=
  let vm := freelist_remove vm segId
  let seg := storeGet vm.store segId
  let (vm, seg) :=
    if seg.base ≠ start then
      let lead : VmemSegment :=
        ⟨seg.base, sub64 start seg.base, SegType.free, false⟩
      let seg2 : VmemSegment :=
        { seg with base := start, size := sub64 seg.size lead.size }
      let vm := { vm with store := storeSet vm.store segId seg2 }
      let (vm, leadId) := segAllocIn vm lead
      let vm := vmem_add_to_freelist vm leadId
      let vm := { vm with segqueue := insertBefore vm.segqueue segId leadId }
      (vm, seg2)
    else (vm, seg)
  if size < seg.size ∧ vm.quantum - 1 < seg.size - size then
    let alloc : VmemSegment := ⟨seg.base, size, SegType.allocated, false⟩
    let seg2 : VmemSegment :=
      { seg with base := add64 seg.base size, size := seg.size - size }
    let vm := { vm with store := storeSet vm.store segId seg2 }
    let vm := vmem_add_to_freelist vm segId
    let (vm, allocId) := segAllocIn vm alloc
    let vm := { vm with segqueue := insertBefore vm.segqueue segId allocId }
    let vm := { vm with hashlist := allocId :: vm.hashlist }
    (vm, alloc.base)
  else
    let seg2 : VmemSegment := { seg with type := SegType.allocated }
    let vm := { vm with store := storeSet vm.store segId seg2 }
    let vm := { vm with hashlist := segId :: vm.hashlist }
    (vm, seg2.base)

/-- The `while (true)` loop of `vmem_xalloc` with fuel: each pass re-runs
the identical scan on the unchanged arena; `none` for every fuel value
means the C loop never exits (there is no import/ERR_NOMEM path in
vmem.c).  An `ASSERT` abort inside the scan is also `none` (the program
dies); the theorems that rely on non-termination separately establish that
the scan outcome is `.nomem`, not an abort. -/
def vmem_xalloc_loop (vm : Vmem) (size align phase nocross minaddr maxaddr : Nat)
    (flags : VmFlags) : Nat → Option (Vmem × Nat)
  | 0 => none
  | fuel + 1 =>
      match xalloc_scan vm size align phase nocross minaddr maxaddr flags with
      | .found id a => some (vmem_xalloc_found vm size id a)
      | .assertfail _ => none
      | .nomem =>
          vmem_xalloc_loop vm size align phase nocross minaddr maxaddr flags fuel

/-- vmem.c:265-410 `vmem_xalloc` (null-source arena): `align == 0` means the
arena quantum (vmem.c:278-281); `ASSERT(nocross == 0)` at entry holds on
all runs here with `nocross = 0`; then the fueled search loop.  The
requested size is used as passed: the code never rounds it to the
quantum. -/
def vmem_xalloc (fuel : Nat) (vm : Vmem)
    (size align phase nocross minaddr maxaddr : Nat) (flags : VmFlags) :
    Option (Vmem × Nat) :=
  let align := if align = 0 then vm.quantum else align
  vmem_xalloc_loop vm size align phase nocross minaddr maxaddr flags fuel

/-- `vmem_alloc(vmp, size, vmflag)` is `xalloc` with all constraints zero
(spec section 4.E; the wrapper lives in the missing header). -/
def vmem_alloc (fuel : Nat) (vm : Vmem) (size : Nat) (flags : VmFlags) :
    Option (Vmem × Nat) :=
  vmem_xalloc fuel vm size 0 0 0 0 0 flags

/-- FREE segments of the arena in queue order, as (base, size) pairs. -/
def freeSegsOf (vm : Vmem) : List (Nat × Nat) :=
  vm.segqueue.filterMap fun id =>
    let s := storeGet vm.store id
    if s.type = SegType.free then some (s.base, s.size) else none

/-- ALLOCATED segments of the arena in queue order, as (base, size) pairs. -/
def allocSegsOf (vm : Vmem) : List (Nat × Nat) :=
  vm.segqueue.filterMap fun id =>
    let s := storeGet vm.store id
    if s.type = SegType.allocated then some (s.base, s.size) else none

/-- Round `size` up to a multiple of `quantum`. -/
def quantum_roundup (size quantum : Nat) : Nat :=
  ((size + quantum - 1) / quantum) * quantum

/-- Modelled from the spec: `vmem_free` is declared only in the missing
header `vmem.h`; no definition exists under src/.  Spec section 4.E:
look the segment up in the allocated hash index by `address` (`none`
models the unknown-address assertion); assert the stored size equals the
caller-supplied size within quantum rounding; remove it from the hash
index, mark it FREE, merge it with an address-adjacent FREE predecessor
and successor from the segment queue (removing the absorbed records from
the queue and their freelist buckets), and put the surviving segment on
its freelist.  Source release of imported spans does not apply (null
source). -/
def vmem_free (vm : Vmem) (address size : Nat) : Option Vmem :=
  match vm.hashlist.find? fun id => (storeGet vm.store id).base = address with
  | none => none
  | some id =>
    let seg := storeGet vm.store id
    if seg.size ≠ quantum_roundup size vm.quantum then none
    else
      let vm := { vm with hashlist := vm.hashlist.erase id }
      let seg := { seg with type := SegType.free }
      let vm := { vm with store := storeSet vm.store id seg }
      let (vm, seg) :=
        match queuePred vm.segqueue id with
        | none => (vm, seg)
        | some p =>
          let ps := storeGet vm.store p
          if ps.type = SegType.free ∧ add64 ps.base ps.size = seg.base then
            let seg := { seg with base := ps.base, size := add64 ps.size seg.size }
            let vm := { vm with store := storeSet vm.store id seg }
            let vm := freelist_remove vm p
            let vm := { vm with segqueue := vm.segqueue.erase p }
            (vm, seg)
          else (vm, seg)
      let (vm, _) :=
        match queueSucc vm.segqueue id with
        | none => (vm, seg)
        | some n =>
          let ns := storeGet vm.store n
          if ns.type = SegType.free ∧ add64 seg.base seg.size = ns.base then
            let seg := { seg with size := add64 seg.size ns.size }
            let vm := { vm with store := storeSet vm.store id seg }
            let vm := freelist_remove vm n
            let vm := { vm with segqueue := vm.segqueue.erase n }
            (vm, seg)
          else (vm, seg)
      some (vmem_add_to_freelist vm id)

/-! Helper lemmas about the fuel-based log2 used by `clzl`. -/

/-- `log2ft` never exceeds its fuel. -/
theorem log2ft_le (fuel : Nat) : ∀ n, log2ft fuel n ≤ fuel := by
  induction fuel with
  | zero => intro n; simp [log2ft]
  | succ m ih =>
      intro n
      unfold log2ft
      split
      · exact Nat.zero_le _
      · have := ih (n / 2); omega

/-- For `n < 2 ^ (fuel + 1)` the fuel-based log2 stays below `fuel + 1`. -/
theorem log2ft_lt (fuel : Nat) : ∀ n, n < 2 ^ (fuel + 1) →
    log2ft (fuel + 1) n < fuel + 1 := by
  induction fuel with
  | zero =>
      intro n hn
      unfold log2ft
      split
      · omega
      · omega
  | succ m ih =>
      intro n hn
      unfold log2ft
      split
      · omega
      · have hdiv : n / 2 < 2 ^ (m + 1) := by
          have hpow : (2:Nat) ^ (m + 1 + 1) = 2 * 2 ^ (m + 1) := by ring
          omega
        have := ih (n / 2) hdiv
        omega

/-- For `2 ≤ n`, the fuel-based log2 is at least 1. -/
theorem log2f_pos (n : Nat) (h : 2 ≤ n) : 1 ≤ log2f n := by
  unfold log2f log2ft
  split
  · omega
  · omega

/-- For `n < 2 ^ 64`, the fuel-based log2 is at most 63. -/
theorem log2f_le63 (n : Nat) (h : n < 2 ^ 64) : log2f n ≤ 63 := by
  have h2 : log2f n < 64 := log2ft_lt 63 n h
  omega

/-- Claim C1: the claim says every successful
`xalloc(size, align, phase, nocross, minaddr, maxaddr)` returning `a`
satisfies `a ≥ minaddr` and `a + size ≤ maxaddr` when the window is set,
i.e. that `seg_fit` clamps its search to the intersection of the segment
with `[minaddr, maxaddr)`.  The code instead widens the window
(`start = MIN(segment->base, minaddr)`, `end = MAX(..., maxaddr)`,
vmem.c:189-190): on an arena whose only span is `[0x1000, 0x2000)`, an
allocation with window `[0x8000, 0x9000)` succeeds and returns `0x1000`,
which is below `minaddr` — the code violates the claim. -/
theorem C1_window_violated :
    (vmem_xalloc 1 (vmem_create 0x1000 0x1000 0x1000) 0x1000 0 0 0 0x8000 0x9000
        ⟨true, false⟩).map (fun p => p.2) = some 0x1000 ∧
    (0x1000 : Nat) < 0x8000 := by
  decide

/-- Claim C4: the claim says a FREE segment of size `s` is placed in bucket
`⌊log2 s⌋`.  The code places it in bucket `⌊log2 s⌋ - 1`:
`freelist_for_size` (vmem.c:125) subtracts 1 from `GET_LIST(size)`, which by
its own comment (vmem.c:30-34) already equals `⌊log2 size⌋`.  Witnessed at
size 0x1000: the initial FREE segment of `vmem_create 0 0x1000 0x1000`
lands in bucket 11, while `⌊log2 0x1000⌋ = 12` and bucket 12 stays
empty. -/
theorem C4_bucket_off_by_one :
    freelist_for_size_idx 0x1000 = 11 ∧
    log2f 0x1000 = 12 ∧
    (vmem_create 0 0x1000 0x1000).freelist.getD 11 [] = [1] ∧
    (vmem_create 0 0x1000 0x1000).freelist.getD 12 [] = [] ∧
    (storeGet (vmem_create 0 0x1000 0x1000).store 1).size = 0x1000 ∧
    (storeGet (vmem_create 0 0x1000 0x1000).store 1).type = SegType.free := by
  decide

/-- Arena for claim C5: one span `[0, 0x1000)`, quantum 0x1000; its FREE
segment (id 1, size 0x1000) sits in bucket 11, which is also the first
bucket scanned for a request of size 0x1800. -/
def c5_vm : Vmem := vmem_create 0 0x1000 0x1000

/-- Claim C5: the claim says every segment taken from the head of a scanned
bucket during an INSTANTFIT `xalloc` has size at least the requested size,
so the `ASSERT(segment->size >= size)` inside `seg_fit` (vmem.c:187) can
never fire.  It can: for the non-power-of-two request 0x1800 the scan
starts at bucket `freelist_for_size_idx 0x1800 = 11`, whose head is the
FREE segment of size 0x1000 < 0x1800; the very first `seg_fit` call aborts
on that assertion (`ScanResult.assertfail`). -/
theorem C5_instantfit_assert_fires :
    xalloc_scan c5_vm 0x1800 0x1000 0 0 0 0 ⟨true, false⟩ =
      ScanResult.assertfail 1 ∧
    vmem_xalloc 1 c5_vm 0x1800 0 0 0 0 0 ⟨true, false⟩ = none ∧
    freelist_for_size_idx 0x1800 = 11 ∧
    (storeGet c5_vm.store 1).type = SegType.free ∧
    (storeGet c5_vm.store 1).size = 0x1000 ∧
    ¬ seg_fit_asserts (storeGet c5_vm.store 1) 0x1800 0 ∧
    (storeGet c5_vm.store 1).size < quantum_roundup 0x1800 0x1000 := by
  decide

/-- Arena for claim C7: one span `[0, 0x1000)` (segment id 0), quantum
0x1000. -/
def c7_vm : Vmem := vmem_create 0 0x1000 0x1000

/-- Claim C7: the claim says the `vmem_add` precondition assertion fires
exactly when the new range overlaps an existing span, including partial
overlaps.  The guard `vmem_contains` (vmem.c:128-142) actually tests full
containment of the new range in a single existing segment, so the partially
overlapping `add(0x800, 0x1000)` against the span `[0, 0x1000)` passes the
assertion and is accepted, even though `[0x800, 0x1800)` shares addresses
`0x800..0xfff` with the span. -/
theorem C7_partial_overlap_accepted :
    (storeGet c7_vm.store 0).base = 0 ∧
    (storeGet c7_vm.store 0).size = 0x1000 ∧
    (storeGet c7_vm.store 0).type = SegType.span ∧
    vmem_contains c7_vm 0x800 0x1000 = false ∧
    (vmem_add c7_vm 0x800 0x1000).isSome = true ∧
    (0x800 : Nat) < 0 + 0x1000 ∧ (0 : Nat) < 0x800 + 0x1000 := by
  decide

/-- Arena for claim C8: span `[0, 0x10000)`, quantum 0x1000. -/
def c8_vm : Vmem := vmem_create 0 0x10000 0x1000

/-- Claim C8: the claim says `xalloc` rounds the requested size up to a
multiple of the quantum before searching and splitting, so every non-span
segment keeps a quantum-multiple size.  The code never rounds (no rounding
exists between vmem.c:265 and the split at vmem.c:371-398): requesting
0x100 from a quantum-0x1000 arena succeeds at address 0 and leaves an
ALLOCATED segment of size 0x100 and a FREE segment `[0x100, 0x10000)`,
neither a multiple of 0x1000. -/
theorem C8_no_quantum_rounding :
    (vmem_xalloc 1 c8_vm 0x100 0 0 0 0 0 ⟨true, false⟩).map
        (fun p => (p.2, allocSegsOf p.1, freeSegsOf p.1)) =
      some (0, [(0, 0x100)], [(0x100, 0xff00)]) ∧
    (0x100 : Nat) % 0x1000 ≠ 0 ∧ (0xff00 : Nat) % 0x1000 ≠ 0 := by
  decide

/-- Claim C10 counterexample: the claim says the bucket index
`FREELISTS_N - clz(size) - 2` lies in `0..63` for every `size ≥ 1`, in
particular for size 1.  For size 1 the index is `-1`: `freelist_for_size`
would read `vmem->freelist[-1]`, out of bounds. -/
theorem C10_index_oob_at_one :
    freelist_for_size_idx 1 = -1 ∧
    ¬ (0 ≤ freelist_for_size_idx 1 ∧ freelist_for_size_idx 1 < 64) := by
  decide

/-- Claim C10 (amended): for every size with `2 ≤ size < 2^64` the bucket
index `FREELISTS_N - clz(size) - 2` computed by `freelist_for_size` lies
within the bounds `0..FREELISTS_N - 1` of the freelist array; the bound
fails only at size 1, where the index is -1. -/
theorem C10_index_bounds (size : Nat) (h2 : 2 ≤ size) (h64 : size < 2 ^ 64) :
    0 ≤ freelist_for_size_idx size ∧ freelist_for_size_idx size < 64 := by
  have hp := log2f_pos size h2
  have hl := log2f_le63 size h64
  unfold freelist_for_size_idx GET_LIST clzl FREELISTS_N
  omega

/-- Witness for the amended claim C10 at size 2 (index 0). -/
theorem C10_index_bounds_witness :
    0 ≤ freelist_for_size_idx 2 ∧ freelist_for_size_idx 2 < 64 :=
  C10_index_bounds 2 (by decide) (by norm_num)

/-- When one pass of the fit search comes up empty, the `while (true)` loop
of `vmem_xalloc` runs the identical pass again on the unchanged arena: no
amount of fuel makes it return. -/
theorem xalloc_loop_spins (vm : Vmem)
    (size align phase nocross minaddr maxaddr : Nat) (flags : VmFlags)
    (h : xalloc_scan vm size align phase nocross minaddr maxaddr flags =
      ScanResult.nomem) :
    ∀ fuel, vmem_xalloc_loop vm size align phase nocross minaddr maxaddr flags
      fuel = none := by
  intro fuel
  induction fuel with
  | zero => rfl
  | succ n ih =>
      unfold vmem_xalloc_loop
      rw [h]
      exact ih

/-- Arena state after the one successful allocation of the exhaustion
scenario: arena `[0, 0x1000)`, quantum 0x1000, full-span alloc done. -/
def c2_vm1 : Vmem :=
  match vmem_alloc 1 (vmem_create 0 0x1000 0x1000) 0x1000 ⟨true, false⟩ with
  | some p => p.1
  | none => vmem_create 0 0 1

/-- Claim C2: the claim says that on a null-source arena with no satisfying
free segment, `xalloc` terminates and returns `ERR_NOMEM`; on the
one-quantum arena `[0, 0x1000)` the first `alloc(0x1000)` succeeds (at 0)
and the second returns `ERR_NOMEM`.  The code has no `ERR_NOMEM` path at
all: the `while (true)` loop (vmem.c:293-331) rescans the unchanged
freelists forever.  The first allocation does succeed; afterwards the scan
yields `nomem` (not an assertion abort), and the second call returns for no
fuel value — it never terminates. -/
theorem C2_exhaustion_never_returns :
    (vmem_alloc 1 (vmem_create 0 0x1000 0x1000) 0x1000 ⟨true, false⟩).map
        (fun p => p.2) = some 0 ∧
    xalloc_scan c2_vm1 0x1000 0x1000 0 0 0 0 ⟨true, false⟩ =
      ScanResult.nomem ∧
    ∀ fuel, vmem_alloc fuel c2_vm1 0x1000 ⟨true, false⟩ = none := by
  refine ⟨by decide, by decide, ?_⟩
  intro fuel
  show vmem_xalloc_loop c2_vm1 0x1000 c2_vm1.quantum 0 0 0 0 ⟨true, false⟩
      fuel = none
  exact xalloc_loop_spins c2_vm1 0x1000 c2_vm1.quantum 0 0 0 0 ⟨true, false⟩
    (by decide) fuel

/-- Arena for claim C3: span `[0, 0x4000)`, quantum 0x1000. -/
def c3_vm0 : Vmem := vmem_create 0 0x4000 0x1000

/-- The three successful INSTANTFIT allocations of the C3 scenario
(sizes 0x1000, 0x2000, 0x1000), with the final arena and the three
returned addresses. -/
def c3_allocs : Option (Vmem × Nat × Nat × Nat) :=
  (vmem_alloc 1 c3_vm0 0x1000 ⟨true, false⟩).bind fun p1 =>
  (vmem_alloc 1 p1.1 0x2000 ⟨true, false⟩).bind fun p2 =>
  (vmem_alloc 1 p2.1 0x1000 ⟨true, false⟩).map fun p3 =>
    (p3.1, p1.2, p2.2, p3.2)

/-- Freeing all three allocations of the C3 scenario, in allocation order,
each with the size it was requested with. -/
def c3_roundtrip : Option Vmem :=
  c3_allocs.bind fun q =>
  (vmem_free q.1 q.2.1 0x1000).bind fun v4 =>
  (vmem_free v4 q.2.2.1 0x2000).bind fun v5 =>
  vmem_free v5 q.2.2.2 0x1000

/-- Claim C3: the claim says any sequence of successful allocs followed by
frees of all results (in any order) restores the initial arena.  On the
arena `[0, 0x4000)` (quantum 0x1000), the allocs 0x1000, 0x2000, 0x1000
all succeed but return addresses 0, 0x1000, 0x1000: the third allocation
returns the already-allocated address 0x1000 (a consequence of the widened
`seg_fit` window, vmem.c:189) and the arena now holds a wrapped FREE
segment of size `2^64 - 0x2000`.  Freeing the results in allocation order
then fails at the second free: the hash lookup at address 0x1000 finds the
third allocation's 0x1000-sized segment, and the stored-size assertion
fires (modelled as `none`).  The round trip aborts instead of restoring
the initial state. -/
theorem C3_roundtrip_fails :
    (c3_allocs.map fun q => (q.2.1, q.2.2.1, q.2.2.2)) =
      some (0, 0x1000, 0x1000) ∧
    (c3_allocs.map fun q => freeSegsOf q.1) =
      some [(0x3000, 2 ^ 64 - 0x2000), (0x2000, 0x2000)] ∧
    (c3_allocs.bind fun q => vmem_free q.1 q.2.1 0x1000).isSome = true ∧
    (c3_allocs.bind fun q =>
      (vmem_free q.1 q.2.1 0x1000).bind fun v4 =>
        vmem_free v4 q.2.2.1 0x2000) = none ∧
    c3_roundtrip = none ∧
    freeSegsOf c3_vm0 = [(0, 0x4000)] := by
  decide

/-- The fit test the BESTFIT inner loop applies to one segment id
(vmem.c:319-323): segments smaller than the request are skipped without
calling `seg_fit`, larger ones are offered to `seg_fit`. -/
def fit_try (vm : Vmem) (size align phase minaddr maxaddr id : Nat) :
    Option Nat :=
  let s := storeGet vm.store id
  if size ≤ s.size then seg_fit s size align phase minaddr maxaddr else none

/-- All segment ids the BESTFIT scan visits, in visit order: the buckets in
index order, each bucket in list (most-recently-inserted-first) order. -/
def scan_order (vm : Vmem) (bs : List Nat) : List Nat :=
  (bs.map fun i => vm.freelist.getD i []).flatten

/-- Arena for claim C6: no initial span; spans `[0x10000, 0x12000)` and
`[0x20000, 0x23000)` added afterwards, so bucket 12 holds the FREE segment
of size 0x3000 (id 3, inserted last, at the head) before the FREE segment
of size 0x2000 (id 1). -/
def c6_vm : Vmem :=
  match vmem_add (vmem_create 0 0 0x1000) 0x10000 0x2000 with
  | some v1 =>
      (match vmem_add v1 0x20000 0x3000 with
       | some v2 => v2
       | none => v1)
  | none => vmem_create 0 0 0x1000

/-- Claim C6 counterexample: the claim says a BESTFIT `xalloc` chooses the
smallest segment for which `seg_fit` succeeds within the lowest-indexed
bucket yielding any fit.  For a request of size 0x2000 the scan starts and
stops at bucket 12, which holds segments of sizes 0x3000 (id 3, head) and
0x2000 (id 1); the code takes id 3 — the first in list order — even though
the strictly smaller id 1 also satisfies `seg_fit` in the same bucket
(vmem.c:316-325 `goto found` on the first success, with only a TODO noting
the missing search for the best fit). -/
theorem C6_bestfit_not_smallest :
    xalloc_scan c6_vm 0x2000 0x1000 0 0 0 0 ⟨false, true⟩ =
      ScanResult.found 3 0x1000 ∧
    (vmem_xalloc 1 c6_vm 0x2000 0 0 0 0 0 ⟨false, true⟩).map (fun p => p.2) =
      some 0x1000 ∧
    (freelist_for_size_idx 0x2000).toNat = 12 ∧
    c6_vm.freelist.getD 12 [] = [3, 1] ∧
    (storeGet c6_vm.store 3).size = 0x3000 ∧
    (storeGet c6_vm.store 1).size = 0x2000 ∧
    (fit_try c6_vm 0x2000 0x1000 0 0 0 1).isSome = true ∧
    (0x2000 : Nat) < 0x3000 := by
  decide

/-- Within one bucket, a BESTFIT hit is the first id in list order whose
`fit_try` succeeds. -/
theorem bestfit_ids_first (vm : Vmem)
    (size align phase nocross minaddr maxaddr : Nat)
    (h0 : 0 < size) (hnc : nocross = 0) :
    ∀ (l : List Nat) (id a : Nat),
      bestfit_ids vm size align phase nocross minaddr maxaddr l =
        ScanResult.found id a →
      l.find? (fun j => (fit_try vm size align phase minaddr maxaddr j).isSome)
          = some id ∧
      fit_try vm size align phase minaddr maxaddr id = some a := by
  intro l
  induction l with
  | nil => intro id a h; cases h
  | cons id0 rest ih =>
      intro id a h
      simp only [bestfit_ids] at h
      by_cases hsz : size ≤ (storeGet vm.store id0).size
      · have hch : seg_fit_checked (storeGet vm.store id0) size align phase
            nocross minaddr maxaddr =
            some (seg_fit (storeGet vm.store id0) size align phase minaddr
              maxaddr) := by
          unfold seg_fit_checked
          rw [if_pos]
          exact ⟨h0, hsz, hnc⟩
        rw [if_pos hsz, hch] at h
        cases hfit : seg_fit (storeGet vm.store id0) size align phase minaddr
            maxaddr with
        | some a1 =>
            rw [hfit] at h
            injection h with h3 h4
            subst h3
            subst h4
            have htry : fit_try vm size align phase minaddr maxaddr id0 =
                some a1 := by
              unfold fit_try
              rw [if_pos hsz, hfit]
            refine ⟨?_, htry⟩
            rw [List.find?_cons_of_pos _ (by simp [htry])]
        | none =>
            rw [hfit] at h
            have htry : fit_try vm size align phase minaddr maxaddr id0 =
                none := by
              unfold fit_try
              rw [if_pos hsz, hfit]
            obtain ⟨h1, h2⟩ := ih id a h
            refine ⟨?_, h2⟩
            rw [List.find?_cons_of_neg _ (by simp [htry]), h1]
      · rw [if_neg hsz] at h
        have htry : fit_try vm size align phase minaddr maxaddr id0 = none := by
          unfold fit_try
          rw [if_neg hsz]
        obtain ⟨h1, h2⟩ := ih id a h
        refine ⟨?_, h2⟩
        rw [List.find?_cons_of_neg _ (by simp [htry]), h1]

/-- Within one bucket, a BESTFIT miss means no id in the bucket passes
`fit_try`. -/
theorem bestfit_ids_miss (vm : Vmem)
    (size align phase nocross minaddr maxaddr : Nat)
    (h0 : 0 < size) (hnc : nocross = 0) :
    ∀ l : List Nat,
      bestfit_ids vm size align phase nocross minaddr maxaddr l =
        ScanResult.nomem →
      l.find? (fun j => (fit_try vm size align phase minaddr maxaddr j).isSome)
        = none := by
  intro l
  induction l with
  | nil => intro _; rfl
  | cons id0 rest ih =>
      intro h
      simp only [bestfit_ids] at h
      by_cases hsz : size ≤ (storeGet vm.store id0).size
      · have hch : seg_fit_checked (storeGet vm.store id0) size align phase
            nocross minaddr maxaddr =
            some (seg_fit (storeGet vm.store id0) size align phase minaddr
              maxaddr) := by
          unfold seg_fit_checked
          rw [if_pos]
          exact ⟨h0, hsz, hnc⟩
        rw [if_pos hsz, hch] at h
        cases hfit : seg_fit (storeGet vm.store id0) size align phase minaddr
            maxaddr with
        | some a0 => rw [hfit] at h; cases h
        | none =>
            rw [hfit] at h
            have htry : fit_try vm size align phase minaddr maxaddr id0 =
                none := by
              unfold fit_try
              rw [if_pos hsz, hfit]
            rw [List.find?_cons_of_neg _ (by simp [htry]), ih h]
      · rw [if_neg hsz] at h
        have htry : fit_try vm size align phase minaddr maxaddr id0 = none := by
          unfold fit_try
          rw [if_neg hsz]
        rw [List.find?_cons_of_neg _ (by simp [htry]), ih h]

/-- Across buckets, a BESTFIT hit is the first id in scan order whose
`fit_try` succeeds. -/
theorem bestfit_go_first (vm : Vmem)
    (size align phase nocross minaddr maxaddr : Nat)
    (h0 : 0 < size) (hnc : nocross = 0) :
    ∀ (bs : List Nat) (id a : Nat),
      bestfit_go vm size align phase nocross minaddr maxaddr bs =
        ScanResult.found id a →
      (scan_order vm bs).find?
          (fun j => (fit_try vm size align phase minaddr maxaddr j).isSome)
        = some id ∧
      fit_try vm size align phase minaddr maxaddr id = some a := by
  intro bs
  induction bs with
  | nil => intro id a h; cases h
  | cons i rest ih =>
      intro id a h
      simp only [bestfit_go] at h
      have horder : scan_order vm (i :: rest) =
          vm.freelist.getD i [] ++ scan_order vm rest := by
        simp [scan_order]
      cases hb : bestfit_ids vm size align phase nocross minaddr maxaddr
          (vm.freelist.getD i []) with
      | found id0 a0 =>
          rw [hb] at h
          injection h with h3 h4
          subst h3
          subst h4
          obtain ⟨h1, h2⟩ := bestfit_ids_first vm size align phase nocross
            minaddr maxaddr h0 hnc (vm.freelist.getD i []) id0 a0 hb
          refine ⟨?_, h2⟩
          rw [horder, List.find?_append, h1]
          rfl
      | nomem =>
          rw [hb] at h
          obtain ⟨h1, h2⟩ := ih id a h
          refine ⟨?_, h2⟩
          have hmiss := bestfit_ids_miss vm size align phase nocross minaddr
            maxaddr h0 hnc (vm.freelist.getD i []) hb
          rw [horder, List.find?_append, hmiss, h1]
          rfl
      | assertfail i0 => rw [hb] at h; cases h

/-- Claim C6 (amended): for every BESTFIT `xalloc` scan that finds a
segment (with a positive request size and `nocross = 0`, as asserted at
entry), the chosen segment is the first one in scan order — buckets from
`freelist_for_size(size)` upward, each bucket in its list order, newest
insertions first — whose size is at least the request and on which
`seg_fit` succeeds.  It is not in general the smallest fitting segment of
the first bucket that yields a fit. -/
theorem C6_bestfit_takes_first_fit (vm : Vmem)
    (size align phase nocross minaddr maxaddr : Nat) (id a : Nat)
    (h0 : 0 < size) (hnc : nocross = 0)
    (h : xalloc_scan vm size align phase nocross minaddr maxaddr
        ⟨false, true⟩ = ScanResult.found id a) :
    (scan_order vm
        ((List.range FREELISTS_N).drop (freelist_for_size_idx size).toNat)).find?
        (fun j => (fit_try vm size align phase minaddr maxaddr j).isSome)
      = some id ∧
    fit_try vm size align phase minaddr maxaddr id = some a := by
  have h2 : bestfit_go vm size align phase nocross minaddr maxaddr
      ((List.range FREELISTS_N).drop (freelist_for_size_idx size).toNat) =
      ScanResult.found id a := h
  exact bestfit_go_first vm size align phase nocross minaddr maxaddr h0 hnc
    ((List.range FREELISTS_N).drop (freelist_for_size_idx size).toNat) id a h2

/-- Witness for the amended claim C6, on the counterexample arena: the
first fitting id in scan order is 3, taken at address 0x1000. -/
theorem C6_bestfit_takes_first_fit_witness :
    (scan_order c6_vm
        ((List.range FREELISTS_N).drop (freelist_for_size_idx 0x2000).toNat)).find?
        (fun j => (fit_try c6_vm 0x2000 0x1000 0 0 0 j).isSome)
      = some 3 ∧
    fit_try c6_vm 0x2000 0x1000 0 0 0 3 = some 0x1000 :=
  C6_bestfit_takes_first_fit c6_vm 0x2000 0x1000 0 0 0 0 3 0x1000 (by decide)
    rfl (by decide)

/-- The address returned by the `found:` block is exactly the `start`
address that `seg_fit` chose (vmem.c:369 asserts `seg->base == start`; the
allocated segment's base is that value in both split shapes). -/
theorem xalloc_found_addr (vm : Vmem) (size segId start : Nat) :
    (vmem_xalloc_found vm size segId start).2 = start := by
  simp only [vmem_xalloc_found]
  split
  next h1 =>
    split
    next => rfl
    next => rfl
  next h1 =>
    have hb := Decidable.not_not.mp h1
    split
    next => exact hb
    next => exact hb

/-- Powers of two up to the word width divide the word modulus. -/
theorem pow2_dvd_wsize (k : Nat) (hk : k ≤ 64) : (2 : Nat) ^ k ∣ wsize := by
  unfold wsize
  exact pow_dvd_pow 2 hk

/-- Masking with a multiple of `2^k` clears the low `k` bits. -/
theorem land_mod_pow2 (z m k : Nat) (hm : 2 ^ k ∣ m) :
    (z &&& m) % 2 ^ k = 0 := by
  rw [← Nat.and_pow_two_sub_one_eq_mod (z &&& m) k, Nat.land_assoc,
    Nat.and_pow_two_sub_one_eq_mod m k, Nat.mod_eq_zero_of_dvd hm,
    Nat.and_zero]

/-- `VMEM_ALIGNUP(x, 2^k)` is a multiple of `2^k` (the mask
`~(align - 1)` on 64 bits is `2^64 - 2^k`, a multiple of `2^k`). -/
theorem alignup_pow2_mod (x k : Nat) (hk : k ≤ 64) :
    VMEM_ALIGNUP x (2 ^ k) % 2 ^ k = 0 := by
  unfold VMEM_ALIGNUP not64
  have h1 : (2 : Nat) ^ k ≤ wsize := by
    unfold wsize
    exact Nat.pow_le_pow_right (by norm_num) hk
  have h2 : (1 : Nat) ≤ 2 ^ k := Nat.one_le_two_pow
  have h3 : ((2 : Nat) ^ k - 1) % wsize = 2 ^ k - 1 :=
    Nat.mod_eq_of_lt (by omega)
  rw [h3, h3]
  have h4 : wsize - 1 - (2 ^ k - 1) = wsize - 2 ^ k := by omega
  rw [h4]
  exact land_mod_pow2 _ _ k
    (Nat.dvd_sub' (pow2_dvd_wsize k hk) dvd_rfl)

/-- Adding `phase` modulo `2^64` and subtracting it back (wrapping)
preserves divisibility by `2^k`, `k ≤ 64`. -/
theorem phase_cancel (A phase k : Nat) (hk : k ≤ 64) (hA : A % 2 ^ k = 0) :
    sub64 (add64 A phase) phase % 2 ^ k = 0 := by
  have hd := pow2_dvd_wsize k hk
  have hw : 0 < wsize := by unfold wsize; positivity
  unfold sub64 add64
  rw [Nat.mod_mod_of_dvd _ hd, Nat.add_mod, Nat.mod_mod_of_dvd _ hd,
    ← Nat.add_mod]
  have h5 := Nat.mod_add_div phase wsize
  have h6 : phase % wsize < wsize := Nat.mod_lt _ hw
  have h7 : A + phase + (wsize - phase % wsize) =
      A + wsize * (phase / wsize) + wsize := by omega
  rw [h7]
  refine Nat.mod_eq_zero_of_dvd ?_
  refine Nat.dvd_add (Nat.dvd_add ?_ ?_) hd
  · exact Nat.dvd_of_mod_eq_zero hA
  · exact Dvd.dvd.mul_right hd _

/-- The `start += align` adjustment of `seg_fit` (vmem.c:204-207)
preserves the phase congruence. -/
theorem align_step (s phase k : Nat) (hk : k ≤ 64)
    (hs : sub64 s phase % 2 ^ k = 0) :
    sub64 (add64 s (2 ^ k)) phase % 2 ^ k = 0 := by
  have hd := pow2_dvd_wsize k hk
  unfold sub64 at hs
  unfold sub64 add64
  rw [Nat.mod_mod_of_dvd _ hd] at hs ⊢
  rw [Nat.add_mod, Nat.mod_mod_of_dvd _ hd, ← Nat.add_mod]
  have h7 : s + 2 ^ k + (wsize - phase % wsize) =
      s + (wsize - phase % wsize) + 2 ^ k := by omega
  rw [h7, Nat.add_mod, hs, Nat.mod_self]
  simp

/-- Every address `seg_fit` returns with a power-of-two alignment `2^k`
satisfies `(a - phase) mod 2^k = 0` in wrapping 64-bit arithmetic. -/
theorem seg_fit_phase (seg : VmemSegment) (size phase minaddr maxaddr a k : Nat)
    (hk : k ≤ 63)
    (h : seg_fit seg size (2 ^ k) phase minaddr maxaddr = some a) :
    sub64 a phase % 2 ^ k = 0 := by
  have hk64 : k ≤ 64 := by omega
  simp only [seg_fit] at h
  by_cases h1 : max (add64 seg.base seg.size) maxaddr < min seg.base minaddr
  · rw [if_pos h1] at h; cases h
  · rw [if_neg h1] at h
    have hbase : sub64
        (add64 (VMEM_ALIGNUP (sub64 (min seg.base minaddr) phase) (2 ^ k))
          phase) phase % 2 ^ k = 0 :=
      phase_cancel _ phase k hk64
        (alignup_pow2_mod (sub64 (min seg.base minaddr) phase) k hk64)
    by_cases h2 : add64 (VMEM_ALIGNUP (sub64 (min seg.base minaddr) phase)
        (2 ^ k)) phase < seg.base
    · rw [if_pos h2] at h
      split at h
      · injection h with h3
        subst h3
        exact align_step _ phase k hk64 hbase
      · cases h
    · rw [if_neg h2] at h
      split at h
      · injection h with h3
        subst h3
        exact hbase
      · cases h

/-- An INSTANTFIT hit comes out of a successful `seg_fit` call on the
found segment. -/
theorem instantfit_go_fit (vm : Vmem)
    (size align phase nocross minaddr maxaddr : Nat) :
    ∀ (bs : List Nat) (id a : Nat),
      instantfit_go vm size align phase nocross minaddr maxaddr bs =
        ScanResult.found id a →
      seg_fit (storeGet vm.store id) size align phase minaddr maxaddr =
        some a := by
  intro bs
  induction bs with
  | nil => intro id a h; cases h
  | cons i rest ih =>
      intro id a h
      simp only [instantfit_go] at h
      cases hh : (vm.freelist.getD i []).head? with
      | none => rw [hh] at h; exact ih id a h
      | some id0 =>
          simp only [hh] at h
          by_cases hA : seg_fit_asserts (storeGet vm.store id0) size nocross
          · have hch : seg_fit_checked (storeGet vm.store id0) size align phase
                nocross minaddr maxaddr =
                some (seg_fit (storeGet vm.store id0) size align phase minaddr
                  maxaddr) := by
              unfold seg_fit_checked
              rw [if_pos hA]
            rw [hch] at h
            cases hfit : seg_fit (storeGet vm.store id0) size align phase
                minaddr maxaddr with
            | some a1 =>
                rw [hfit] at h
                injection h with h3 h4
                subst h3
                subst h4
                exact hfit
            | none => rw [hfit] at h; exact ih id a h
          · have hch : seg_fit_checked (storeGet vm.store id0) size align phase
                nocross minaddr maxaddr = none := by
              unfold seg_fit_checked
              rw [if_neg hA]
            rw [hch] at h
            cases h

/-- A BESTFIT in-bucket hit comes out of a successful `seg_fit` call on
the found segment. -/
theorem bestfit_ids_fit (vm : Vmem)
    (size align phase nocross minaddr maxaddr : Nat) :
    ∀ (l : List Nat) (id a : Nat),
      bestfit_ids vm size align phase nocross minaddr maxaddr l =
        ScanResult.found id a →
      seg_fit (storeGet vm.store id) size align phase minaddr maxaddr =
        some a := by
  intro l
  induction l with
  | nil => intro id a h; cases h
  | cons id0 rest ih =>
      intro id a h
      simp only [bestfit_ids] at h
      by_cases hsz : size ≤ (storeGet vm.store id0).size
      · rw [if_pos hsz] at h
        by_cases hA : seg_fit_asserts (storeGet vm.store id0) size nocross
        · have hch : seg_fit_checked (storeGet vm.store id0) size align phase
              nocross minaddr maxaddr =
              some (seg_fit (storeGet vm.store id0) size align phase minaddr
                maxaddr) := by
            unfold seg_fit_checked
            rw [if_pos hA]
          rw [hch] at h
          cases hfit : seg_fit (storeGet vm.store id0) size align phase
              minaddr maxaddr with
          | some a1 =>
              rw [hfit] at h
              injection h with h3 h4
              subst h3
              subst h4
              exact hfit
          | none => rw [hfit] at h; exact ih id a h
        · have hch : seg_fit_checked (storeGet vm.store id0) size align phase
              nocross minaddr maxaddr = none := by
            unfold seg_fit_checked
            rw [if_neg hA]
          rw [hch] at h
          cases h
      · rw [if_neg hsz] at h; exact ih id a h

/-- A BESTFIT hit comes out of a successful `seg_fit` call on the found
segment. -/
theorem bestfit_go_fit (vm : Vmem)
    (size align phase nocross minaddr maxaddr : Nat) :
    ∀ (bs : List Nat) (id a : Nat),
      bestfit_go vm size align phase nocross minaddr maxaddr bs =
        ScanResult.found id a →
      seg_fit (storeGet vm.store id) size align phase minaddr maxaddr =
        some a := by
  intro bs
  induction bs with
  | nil => intro id a h; cases h
  | cons i rest ih =>
      intro id a h
      simp only [bestfit_go] at h
      cases hb : bestfit_ids vm size align phase nocross minaddr maxaddr
          (vm.freelist.getD i []) with
      | found id0 a0 =>
          rw [hb] at h
          injection h with h3 h4
          subst h3
          subst h4
          exact bestfit_ids_fit vm size align phase nocross minaddr maxaddr
            (vm.freelist.getD i []) id0 a0 hb
      | nomem => rw [hb] at h; exact ih id a h
      | assertfail i0 => rw [hb] at h; cases h

/-- Any hit of the fit search, under either policy, comes out of a
successful `seg_fit` call on the found segment. -/
theorem xalloc_scan_fit (vm : Vmem)
    (size align phase nocross minaddr maxaddr : Nat) (flags : VmFlags)
    (id a : Nat)
    (h : xalloc_scan vm size align phase nocross minaddr maxaddr flags =
      ScanResult.found id a) :
    seg_fit (storeGet vm.store id) size align phase minaddr maxaddr =
      some a := by
  simp only [xalloc_scan] at h
  by_cases hi : flags.instantfit = true
  · rw [if_pos hi] at h
    exact instantfit_go_fit vm size align phase nocross minaddr maxaddr _ id a h
  · rw [if_neg hi] at h
    by_cases hbf : flags.bestfit = true
    · rw [if_pos hbf] at h
      exact bestfit_go_fit vm size align phase nocross minaddr maxaddr _ id a h
    · rw [if_neg hbf] at h; cases h

/-- When the fueled `xalloc` loop returns an address, that address is the
`seg_fit` start of the segment found by the (state-independent) scan. -/
theorem xalloc_loop_found (vm : Vmem)
    (size align phase nocross minaddr maxaddr : Nat) (flags : VmFlags)
    (fuel : Nat) (vm2 : Vmem) (a : Nat)
    (h : vmem_xalloc_loop vm size align phase nocross minaddr maxaddr flags
      fuel = some (vm2, a)) :
    ∃ id, xalloc_scan vm size align phase nocross minaddr maxaddr flags =
      ScanResult.found id a := by
  cases hs : xalloc_scan vm size align phase nocross minaddr maxaddr flags with
  | found id0 a0 =>
      refine ⟨id0, ?_⟩
      cases fuel with
      | zero => cases h
      | succ n =>
          unfold vmem_xalloc_loop at h
          rw [hs] at h
          injection h with h2
          have h3 : (vmem_xalloc_found vm size id0 a0).2 = (vm2, a).2 := by
            rw [h2]
          rw [xalloc_found_addr] at h3
          have h4 : a0 = a := h3
          rw [h4]
  | nomem =>
      rw [xalloc_loop_spins vm size align phase nocross minaddr maxaddr flags
        hs fuel] at h
      cases h
  | assertfail i0 =>
      cases fuel with
      | zero => cases h
      | succ n =>
          unfold vmem_xalloc_loop at h
          rw [hs] at h
          cases h

/-- Claim C9: for every successful `xalloc` returning address `a`, with
the effective alignment (`align`, or the quantum when `align = 0`) a power
of two `2^k` (`k ≤ 63`, as any power-of-two multiple of the quantum
representable in a word is), the returned base satisfies
`(a - phase) mod align = 0` in the wrapping 64-bit arithmetic of the C
code; in particular the `start += align` adjustment taken when the aligned
start falls below the segment base preserves the congruence
(`align_step`). -/
theorem C9_phase_alignment (fuel : Nat) (vm : Vmem)
    (size align phase nocross minaddr maxaddr : Nat) (flags : VmFlags)
    (vm2 : Vmem) (a k : Nat)
    (hk : (if align = 0 then vm.quantum else align) = 2 ^ k) (hk63 : k ≤ 63)
    (h : vmem_xalloc fuel vm size align phase nocross minaddr maxaddr flags =
      some (vm2, a)) :
    sub64 a phase % (if align = 0 then vm.quantum else align) = 0 := by
  rw [hk]
  unfold vmem_xalloc at h
  rw [hk] at h
  obtain ⟨id, hid⟩ := xalloc_loop_found vm size (2 ^ k) phase nocross minaddr
    maxaddr flags fuel vm2 a h
  have hfit := xalloc_scan_fit vm size (2 ^ k) phase nocross minaddr maxaddr
    flags id a hid
  exact seg_fit_phase (storeGet vm.store id) size phase minaddr maxaddr a k
    hk63 hfit

/-- Witness arena for claim C9: span `[0, 0x10000)`, quantum 0x1000. -/
def c9w_vm : Vmem := vmem_create 0 0x10000 0x1000

/-- The head-split scenario of the spec (section 8, scenario 2):
`xalloc(size 0x1000, align 0x1000, phase 0x100)`, returning 0x100. -/
def c9w_res : Option (Vmem × Nat) :=
  vmem_xalloc 1 c9w_vm 0x1000 0x1000 0x100 0 0 0 ⟨true, false⟩

/-- The arena state produced by the witness allocation. -/
def c9w_vm2 : Vmem := (c9w_res.getD (vmem_create 0 0 1, 0)).1

/-- Witness for claim C9: the head-split allocation returns 0x100 with
phase 0x100 and alignment 0x1000, and the congruence holds. -/
theorem C9_phase_alignment_witness :
    sub64 0x100 0x100 % (if (0x1000 : Nat) = 0 then c9w_vm.quantum
      else 0x1000) = 0 :=
  C9_phase_alignment 1 c9w_vm 0x1000 0x1000 0x100 0 0 0 ⟨true, false⟩ c9w_vm2
    0x100 12 (by decide) (by decide) (by decide)
